import Mathlib

/-!
Verification of the `chain` package of go-telegram-flow (src/chain/flow.go).

Embedding choices:
- Go pointers `*Node` are modelled as `Option Nat`: `none` is the nil
  pointer, `some i` points at slot `i` of the flow's node heap
  (`Flow.nodes : Nat → NodeData`).  Pointer identity on nodes is equality
  of heap indices.
- `tb.Recipient` is modelled by its stable string key (`Recipient()`),
  and `tb.Message` by a structure carrying its sender's key plus its text.
- The `positions` Go map is an association list `List (String × Ptr)`;
  a key that is absent is distinct from a key mapped to the nil pointer,
  exactly as in a Go `map[string]*Node`.
- The transport client (`tb.Bot`) is modelled as a function from the
  shape of the `Send` call that `Start` issues to an optional error code
  (`none` = success), and `Start` additionally returns the list of `Send`
  calls it issued.  `Process` additionally returns the list of handler
  invocations it performed, so "invoked exactly once with (N, M)" is a
  statement about that trace.
- The `sync.RWMutex` and the back pointer `Node.flow` are not part of the
  functional state.
-/

namespace Chain

/-- A Go `*Node` pointer: `none` is nil, `some i` points at heap slot `i`. -/
abbrev Ptr := Option Nat

/-- Model of `tb.Message`: the sender's recipient key and the text. -/
structure Message where
  sender : String
  text : String
deriving DecidableEq, Repr

/-- Model of the data held in a `Node` (file with the Node definition is not
in the repository snapshot; fields follow the spec's data model: an id, a
validator predicate, an optional endpoint `FlowCallback`, and the chain
links).  An endpoint, like Go's `FlowCallback`, receives the node it is
attached to and the message, and returns the next node pointer. -/
structure NodeData where
  id : String
  validator : Message → Bool
  endpoint : Option (Nat → Message → Ptr)
  prev : Ptr
  next : Ptr

/-- Modelled from the spec: `Node.CheckEvent` lives in a source file that is
not in the snapshot (only flow.go is present); per the spec it applies the
node's validator to the inbound message, pure and side-effect free. -/
def NodeData.CheckEvent (nd : NodeData) (m : Message) : Bool :=
  nd.validator m

/-- The shape of a `bot.Send` call issued by `Flow.Start`: either with the
collected variadic options forwarded, or with recipient and text only.
Option values are opaque to the flow; we model them as naturals. -/
inductive SendCall where
  | sendWithOptions (rcpt : String) (text : String) (options : List Nat)
  | sendPlain (rcpt : String) (text : String)
deriving DecidableEq, Repr

/-- A handler invocation performed by `Flow.Process`: the node's own
endpoint or the flow's default handler, applied to (node, message). -/
inductive HEvent where
  | endpointCall (n : Nat) (m : Message)
  | defaultCall (n : Nat) (m : Message)
deriving DecidableEq, Repr

/-- Errors returned by `Flow.Start`: `chainIsEmpty` models
`ErrChainIsEmpty`, `sendFailed code` models a transport error propagated
verbatim from `bot.Send`. -/
inductive FlowError where
  | chainIsEmpty
  | sendFailed (code : Nat)
deriving DecidableEq, Repr

/-- Lookup in a Go map modelled as an association list:
`none` = key absent, `some v` = key present with value `v`. -/
def mapLookup : List (String × Ptr) → String → Option Ptr
  | [], _ => none
  | (a, v) :: t, k => if a = k then some v else mapLookup t k

/-- Upsert in a Go map modelled as an association list. -/
def mapInsert : List (String × Ptr) → String → Ptr → List (String × Ptr)
  | [], k, v => [(k, v)]
  | (a, w) :: t, k, v => if a = k then (k, v) :: t else (a, w) :: mapInsert t k v

/-- Deletion in a Go map modelled as an association list. -/
def mapDelete : List (String × Ptr) → String → List (String × Ptr)
  | [], _ => []
  | (a, w) :: t, k => if a = k then mapDelete t k else (a, w) :: mapDelete t k

/-- Model of the `Flow` struct of flow.go.  `root` is the heap index of the
root sentinel node; `bot` is the transport client; the mutex is not part of
the functional state. -/
structure Flow where
  flowId : String
  root : Nat
  nodes : Nat → NodeData
  bot : SendCall → Option Nat
  defaultLocale : String
  positions : List (String × Ptr)
  defaultHandler : Option (Nat → Message → Ptr)

/-- `NewFlow` of flow.go: the `flowId` struct field is never assigned (it
keeps the zero value ""); the given id is stored as the root node's id.
The root node is created with nil endpoint, prev and next; the Node zero
value of the validator (nil in Go, never consulted on the root) is modelled
as the constantly-false predicate.  The heap holds only the root.
Returns the flow together with the (always nil) error. -/
def NewFlow (flowId : String) (bot : SendCall → Option Nat) :
    Flow × Option FlowError :=
  ({ flowId := ""
     root := 0
     nodes := fun _ =>
       { id := flowId, validator := fun _ => false, endpoint := none
         prev := none, next := none }
     bot := bot
     defaultLocale := ""
     positions := []
     defaultHandler := none }, none)

/-- `Flow.GetFlowId` of flow.go. -/
def Flow.GetFlowId (f : Flow) : String :=
  f.flowId

/-- `Flow.GetPosition` of flow.go.  The Go pair `(*Node, bool)` is encoded
as `Option Ptr`: `none` = `(nil, false)`, `some p` = `(p, true)`. -/
def Flow.GetPosition (f : Flow) (of : String) : Option Ptr :=
  mapLookup f.positions of

/-- `Flow.SetPosition` of flow.go. -/
def Flow.SetPosition (f : Flow) (of : String) (node : Ptr) : Flow :=
  { f with positions := mapInsert f.positions of node }

/-- `Flow.DeletePosition` of flow.go. -/
def Flow.DeletePosition (f : Flow) (of : String) : Flow :=
  { f with positions := mapDelete f.positions of }

/-- `Flow.DefaultHandler` of flow.go (fluent setter). -/
def Flow.DefaultHandler (f : Flow) (endpoint : Nat → Message → Ptr) : Flow :=
  { f with defaultHandler := some endpoint }

/-- The `Send` call that `Flow.Start` issues: the variadic options are
forwarded only when the list is non-empty (the "workaround for nil
options" branch of flow.go). -/
def startCall (rcpt : String) (text : String) (options : List Nat) : SendCall :=
  if options.length > 0 then SendCall.sendWithOptions rcpt text options
  else SendCall.sendPlain rcpt text

/-- `Flow.Start` of flow.go.  Returns the error result, the resulting flow
state, and the list of `Send` calls issued. -/
def Flow.Start (f : Flow) (rcpt : String) (text : String) (options : List Nat) :
    Option FlowError × Flow × List SendCall :=
  if (f.nodes f.root).next = none then
    (some FlowError.chainIsEmpty, f, [])
  else
    let call := startCall rcpt text options
    match f.bot call with
    | some code => (some (FlowError.sendFailed code), f, [call])
    | none =>
      (none,
       { f with positions := mapInsert f.positions rcpt (f.nodes f.root).next },
       [call])

/-- The shared fallback block of `Flow.Process` (the body of
`if !node.CheckEvent(m) || node.endpoint == nil`): invoke the default
handler when there is one, moving the position only when the returned node
differs by identity; otherwise reject. -/
def Flow.processFallback (f : Flow) (sender : String) (n : Nat) (msg : Message) :
    Bool × Flow × List HEvent :=
  match f.defaultHandler with
  | some dh =>
    let next := dh n msg
    (true,
     if next = some n then f else f.SetPosition sender next,
     [HEvent.defaultCall n msg])
  | none => (false, f, [])

/-- `Flow.Process` of flow.go.  The `Option Message` argument models the
possibly-nil `*tb.Message`.  Returns the boolean result, the resulting flow
state, and the list of handler invocations performed. -/
def Flow.Process (f : Flow) (m : Option Message) : Bool × Flow × List HEvent :=
  match m with
  | none => (false, f, [])
  | some msg =>
    let sender := msg.sender
    match f.GetPosition sender with
    | none => (false, f, [])
    | some none => (false, f.DeletePosition sender, [])
    | some (some n) =>
      let node := f.nodes n
      if node.CheckEvent msg then
        match node.endpoint with
        | none => f.processFallback sender n msg
        | some ep =>
          let next := ep n msg
          (true,
           if next = some n then f else f.SetPosition sender next,
           [HEvent.endpointCall n msg])
      else
        f.processFallback sender n msg

/-! Lemmas about the association-list model of the Go map. -/

theorem mapLookup_mapInsert_self (l : List (String × Ptr)) (k : String) (v : Ptr) :
    mapLookup (mapInsert l k v) k = some v := by
  induction l with
  | nil => simp [mapInsert, mapLookup]
  | cons hd t ih =>
    obtain ⟨a, w⟩ := hd
    by_cases h : a = k
    · simp [mapInsert, mapLookup, h]
    · simp [mapInsert, mapLookup, h, ih]

theorem mapLookup_mapDelete_self (l : List (String × Ptr)) (k : String) :
    mapLookup (mapDelete l k) k = none := by
  induction l with
  | nil => simp [mapDelete, mapLookup]
  | cons hd t ih =>
    obtain ⟨a, w⟩ := hd
    by_cases h : a = k
    · simp [mapDelete, h, ih]
    · simp [mapDelete, mapLookup, h, ih]

/-! Concrete fixtures used by the witness theorems.  `heapAB` is the chain
`root (slot 0) → A (slot 1) → B (slot 2)`; node A accepts every message and
its endpoint always moves to B; node B is terminal (nil endpoint). -/

/-- A sample message from recipient key "u1". -/
def msgU1 : Message := { sender := "u1", text := "hello" }

/-- Node heap for the chain root → A → B; A's endpoint always returns B. -/
def heapAB : Nat → NodeData := fun i =>
  if i = 1 then
    { id := "A", validator := fun _ => true, endpoint := some fun _ _ => some 2
      prev := some 0, next := some 2 }
  else if i = 2 then
    { id := "B", validator := fun _ => true, endpoint := none
      prev := some 1, next := none }
  else
    { id := "f1", validator := fun _ => false, endpoint := none
      prev := none, next := some 1 }

/-- Flow over `heapAB` whose recipient "u1" currently sits at node A, with
an always-successful transport and no default handler. -/
def flowA : Flow :=
  { flowId := "", root := 0, nodes := heapAB, bot := fun _ => none
    defaultLocale := "", positions := [("u1", some 1)], defaultHandler := none }

/-- Like `flowA`, but node A rejects every message and the flow has a
default handler that always answers node B. -/
def flowB : Flow :=
  { flowId := "", root := 0
    nodes := fun i =>
      if i = 1 then
        { id := "A", validator := fun _ => false
          endpoint := some fun _ _ => some 2, prev := some 0, next := some 2 }
      else heapAB i
    bot := fun _ => none, defaultLocale := ""
    positions := [("u1", some 1)], defaultHandler := some fun _ _ => some 2 }

/-- Like `flowA`, but node A's endpoint keeps the user in place (returns
node A itself). -/
def flowStay : Flow :=
  { flowId := "", root := 0
    nodes := fun i =>
      if i = 1 then
        { id := "A", validator := fun _ => true
          endpoint := some fun _ _ => some 1, prev := some 0, next := some 2 }
      else heapAB i
    bot := fun _ => none, defaultLocale := ""
    positions := [("u1", some 1)], defaultHandler := none }

/-- A flow with an empty chain (root.next is nil) and one tracked position. -/
def flowEmpty : Flow :=
  { flowId := "", root := 0
    nodes := fun _ =>
      { id := "f1", validator := fun _ => false, endpoint := none
        prev := none, next := none }
    bot := fun _ => none, defaultLocale := ""
    positions := [("u2", some 1)], defaultHandler := none }

/-- Flow over `heapAB` whose recipient "u1" has a tracked nil position. -/
def flowNilPos : Flow :=
  { flowId := "", root := 0, nodes := heapAB, bot := fun _ => none
    defaultLocale := "", positions := [("u1", none)], defaultHandler := none }

/-- Flow over `heapAB` whose transport always fails with error code 7. -/
def flowSendFail : Flow :=
  { flowId := "", root := 0, nodes := heapAB, bot := fun _ => some 7
    defaultLocale := "", positions := [], defaultHandler := none }

/-! Claim theorems. -/

/-- C1: if the sender's tracked position is node `n`, the node's endpoint is
non-nil and `CheckEvent` accepts the message, then `Process` invokes the
endpoint exactly once with (n, msg), returns true, leaves the positions map
unwritten when the endpoint returns the same node, and rebinds the sender
to the returned node when it differs by identity. -/
theorem process_valid_endpoint (f : Flow) (msg : Message) (n : Nat)
    (ep : Nat → Message → Ptr)
    (hpos : mapLookup f.positions msg.sender = some (some n))
    (hep : (f.nodes n).endpoint = some ep)
    (hchk : (f.nodes n).CheckEvent msg = true) :
    (f.Process (some msg)).1 = true ∧
    (f.Process (some msg)).2.2 = [HEvent.endpointCall n msg] ∧
    (ep n msg = some n → (f.Process (some msg)).2.1.positions = f.positions) ∧
    (ep n msg ≠ some n →
      (f.Process (some msg)).2.1.positions =
        mapInsert f.positions msg.sender (ep n msg) ∧
      mapLookup (f.Process (some msg)).2.1.positions msg.sender =
        some (ep n msg)) := by
  by_cases hsame : ep n msg = some n <;>
    simp [Flow.Process, Flow.GetPosition, Flow.SetPosition, hpos, hep, hchk,
      hsame, mapLookup_mapInsert_self]

/-- C1 witness: `flowA` at node A with message `msgU1`. -/
theorem process_valid_endpoint_witness :
    mapLookup flowA.positions msgU1.sender = some (some 1) ∧
    (flowA.nodes 1).endpoint = some (fun _ _ => some 2) ∧
    (flowA.nodes 1).CheckEvent msgU1 = true ∧
    ((flowA.Process (some msgU1)).1 = true ∧
     (flowA.Process (some msgU1)).2.2 = [HEvent.endpointCall 1 msgU1] ∧
     ((fun (_ : Nat) (_ : Message) => some 2) 1 msgU1 = some 1 →
       (flowA.Process (some msgU1)).2.1.positions = flowA.positions) ∧
     ((fun (_ : Nat) (_ : Message) => some 2) 1 msgU1 ≠ some 1 →
       (flowA.Process (some msgU1)).2.1.positions =
         mapInsert flowA.positions msgU1.sender
           ((fun (_ : Nat) (_ : Message) => some 2) 1 msgU1) ∧
       mapLookup (flowA.Process (some msgU1)).2.1.positions msgU1.sender =
         some ((fun (_ : Nat) (_ : Message) => some 2) 1 msgU1))) :=
  ⟨by decide, rfl, by decide,
   process_valid_endpoint flowA msgU1 1 (fun _ _ => some 2)
     (by decide) rfl (by decide)⟩

/-- C2: if the sender's tracked position is node `n` and the message fails
the node's validator or the node has no endpoint, then with a default
handler configured `Process` invokes it exactly once with (n, msg), returns
true and moves the position only when the returned node differs by
identity; with no default handler, `Process` returns false and leaves the
flow unchanged. -/
theorem process_fallback_branch (f : Flow) (msg : Message) (n : Nat)
    (hpos : mapLookup f.positions msg.sender = some (some n))
    (hfail : (f.nodes n).CheckEvent msg = false ∨ (f.nodes n).endpoint = none) :
    (∀ dh, f.defaultHandler = some dh →
      (f.Process (some msg)).1 = true ∧
      (f.Process (some msg)).2.2 = [HEvent.defaultCall n msg] ∧
      (dh n msg = some n → (f.Process (some msg)).2.1.positions = f.positions) ∧
      (dh n msg ≠ some n →
        (f.Process (some msg)).2.1.positions =
          mapInsert f.positions msg.sender (dh n msg))) ∧
    (f.defaultHandler = none →
      (f.Process (some msg)).1 = false ∧
      (f.Process (some msg)).2.1 = f ∧
      (f.Process (some msg)).2.2 = []) := by
  have hfb : ∀ dh, f.defaultHandler = some dh →
      (f.processFallback msg.sender n msg).1 = true ∧
      (f.processFallback msg.sender n msg).2.2 = [HEvent.defaultCall n msg] ∧
      (dh n msg = some n →
        (f.processFallback msg.sender n msg).2.1.positions = f.positions) ∧
      (dh n msg ≠ some n →
        (f.processFallback msg.sender n msg).2.1.positions =
          mapInsert f.positions msg.sender (dh n msg)) := by
    intro dh hdh
    by_cases hsame : dh n msg = some n <;>
      simp [Flow.processFallback, Flow.SetPosition, hdh, hsame]
  have hfbnone : f.defaultHandler = none →
      (f.processFallback msg.sender n msg) = (false, f, []) := by
    intro hdh
    simp [Flow.processFallback, hdh]
  rcases hfail with hchk | hep
  · constructor
    · intro dh hdh
      simpa [Flow.Process, Flow.GetPosition, hpos, hchk] using hfb dh hdh
    · intro hdh
      simp [Flow.Process, Flow.GetPosition, hpos, hchk, hfbnone hdh]
  · constructor
    · intro dh hdh
      rcases hc : (f.nodes n).CheckEvent msg with _ | _ <;>
        simpa [Flow.Process, Flow.GetPosition, hpos, hep, hc] using hfb dh hdh
    · intro hdh
      rcases hc : (f.nodes n).CheckEvent msg with _ | _ <;>
        simp [Flow.Process, Flow.GetPosition, hpos, hep, hc, hfbnone hdh]

/-- C2 witness: `flowB` (node A rejects everything, default handler answers
node B) at message `msgU1`. -/
theorem process_fallback_branch_witness :
    mapLookup flowB.positions msgU1.sender = some (some 1) ∧
    ((flowB.nodes 1).CheckEvent msgU1 = false ∨ (flowB.nodes 1).endpoint = none) ∧
    ((∀ dh, flowB.defaultHandler = some dh →
      (flowB.Process (some msgU1)).1 = true ∧
      (flowB.Process (some msgU1)).2.2 = [HEvent.defaultCall 1 msgU1] ∧
      (dh 1 msgU1 = some 1 →
        (flowB.Process (some msgU1)).2.1.positions = flowB.positions) ∧
      (dh 1 msgU1 ≠ some 1 →
        (flowB.Process (some msgU1)).2.1.positions =
          mapInsert flowB.positions msgU1.sender (dh 1 msgU1))) ∧
    (flowB.defaultHandler = none →
      (flowB.Process (some msgU1)).1 = false ∧
      (flowB.Process (some msgU1)).2.1 = flowB ∧
      (flowB.Process (some msgU1)).2.2 = [])) :=
  ⟨by decide, Or.inl (by decide),
   process_fallback_branch flowB msgU1 1 (by decide) (Or.inl (by decide))⟩

/-- C5: a tracked nil position is evicted by one `Process` call, which
returns false; a second call for the same sender again returns false and
changes nothing. -/
theorem process_nil_position_evicts (f : Flow) (msg : Message)
    (hpos : mapLookup f.positions msg.sender = some none) :
    (f.Process (some msg)).1 = false ∧
    (f.Process (some msg)).2.1.positions = mapDelete f.positions msg.sender ∧
    mapLookup (f.Process (some msg)).2.1.positions msg.sender = none ∧
    ((f.Process (some msg)).2.1.Process (some msg)).1 = false ∧
    ((f.Process (some msg)).2.1.Process (some msg)).2.1 =
      (f.Process (some msg)).2.1 := by
  simp [Flow.Process, Flow.GetPosition, Flow.DeletePosition, hpos,
    mapLookup_mapDelete_self]

/-- C5 witness: `flowNilPos` (recipient "u1" tracked at nil) at `msgU1`. -/
theorem process_nil_position_evicts_witness :
    mapLookup flowNilPos.positions msgU1.sender = some none ∧
    ((flowNilPos.Process (some msgU1)).1 = false ∧
     (flowNilPos.Process (some msgU1)).2.1.positions =
       mapDelete flowNilPos.positions msgU1.sender ∧
     mapLookup (flowNilPos.Process (some msgU1)).2.1.positions msgU1.sender =
       none ∧
     ((flowNilPos.Process (some msgU1)).2.1.Process (some msgU1)).1 = false ∧
     ((flowNilPos.Process (some msgU1)).2.1.Process (some msgU1)).2.1 =
       (flowNilPos.Process (some msgU1)).2.1) :=
  ⟨by decide, process_nil_position_evicts flowNilPos msgU1 (by decide)⟩

/-- C6: on a nil message, or on a message whose sender has no tracked
position, `Process` returns false, leaves the flow unchanged and invokes no
handler. -/
theorem process_rejects_untracked (f : Flow) (m : Option Message)
    (h : m = none ∨ ∃ msg, m = some msg ∧ mapLookup f.positions msg.sender = none) :
    (f.Process m).1 = false ∧ (f.Process m).2.1 = f ∧ (f.Process m).2.2 = [] := by
  rcases h with rfl | ⟨msg, rfl, hpos⟩
  · simp [Flow.Process]
  · simp [Flow.Process, Flow.GetPosition, hpos]

/-- C6 witness: `flowA` with a nil message. -/
theorem process_rejects_untracked_witness :
    ((none : Option Message) = none ∨ ∃ msg, (none : Option Message) = some msg ∧
      mapLookup flowA.positions msg.sender = none) ∧
    ((flowA.Process none).1 = false ∧ (flowA.Process none).2.1 = flowA ∧
     (flowA.Process none).2.2 = []) :=
  ⟨Or.inl rfl, process_rejects_untracked flowA none (Or.inl rfl)⟩

/-- C8: when the handler that a `Process` call invokes (the node's endpoint
on the main branch, or the default handler on the fallback branch) returns
the same node the sender currently sits at, a subsequent `GetPosition` for
that sender answers exactly what it answered before the call. -/
theorem process_same_node_idempotent (f : Flow) (msg : Message) (n : Nat)
    (hpos : mapLookup f.positions msg.sender = some (some n))
    (hsame :
      (∃ ep, (f.nodes n).endpoint = some ep ∧
        (f.nodes n).CheckEvent msg = true ∧ ep n msg = some n) ∨
      (((f.nodes n).CheckEvent msg = false ∨ (f.nodes n).endpoint = none) ∧
        ∃ dh, f.defaultHandler = some dh ∧ dh n msg = some n)) :
    (f.Process (some msg)).2.1.GetPosition msg.sender =
      f.GetPosition msg.sender := by
  rcases hsame with ⟨ep, hep, hchk, hres⟩ | ⟨hfail, dh, hdh, hres⟩
  · simp [Flow.Process, Flow.GetPosition, hpos, hep, hchk, hres]
  · have hfb : (f.processFallback msg.sender n msg).2.1 = f := by
      simp [Flow.processFallback, hdh, hres]
    rcases hfail with hchk | hep
    · simp [Flow.Process, Flow.GetPosition, hpos, hchk, hfb]
    · rcases hc : (f.nodes n).CheckEvent msg with _ | _ <;>
        simp [Flow.Process, Flow.GetPosition, hpos, hep, hc, hfb]

/-- C8 witness: `flowStay` (node A's endpoint returns node A itself) at
`msgU1`. -/
theorem process_same_node_idempotent_witness :
    mapLookup flowStay.positions msgU1.sender = some (some 1) ∧
    ((flowStay.nodes 1).endpoint = some (fun _ _ => some 1) ∧
      (flowStay.nodes 1).CheckEvent msgU1 = true ∧
      (fun (_ : Nat) (_ : Message) => some 1) 1 msgU1 = some 1) ∧
    (flowStay.Process (some msgU1)).2.1.GetPosition msgU1.sender =
      flowStay.GetPosition msgU1.sender :=
  ⟨by decide, ⟨rfl, by decide, rfl⟩,
   process_same_node_idempotent flowStay msgU1 1 (by decide)
     (Or.inl ⟨fun _ _ => some 1, rfl, by decide, rfl⟩)⟩

/-- C3: with a non-empty chain, a successful transport send makes `Start`
return nil and bind the recipient to `root.next`, while a failed send
leaves the flow completely untouched and propagates the send error
verbatim. -/
theorem start_send_outcome (f : Flow) (rcpt text : String) (options : List Nat)
    (hne : (f.nodes f.root).next ≠ none) :
    (f.bot (startCall rcpt text options) = none →
      (f.Start rcpt text options).1 = none ∧
      (f.Start rcpt text options).2.1.positions =
        mapInsert f.positions rcpt (f.nodes f.root).next ∧
      mapLookup (f.Start rcpt text options).2.1.positions rcpt =
        some (f.nodes f.root).next) ∧
    (∀ code, f.bot (startCall rcpt text options) = some code →
      (f.Start rcpt text options).1 = some (FlowError.sendFailed code) ∧
      (f.Start rcpt text options).2.1 = f) := by
  constructor
  · intro hok
    simp [Flow.Start, hne, hok, mapLookup_mapInsert_self]
  · intro code hfail
    simp [Flow.Start, hne, hfail]

/-- C3 witness: both outcomes exercised, the success on `flowA` (transport
always succeeds) and the failure on `flowSendFail` (transport always fails
with code 7); both chains are root → A → B. -/
theorem start_send_outcome_witness :
    ((flowA.nodes flowA.root).next ≠ none ∧
     (flowA.bot (startCall "u3" "hi" []) = none →
       (flowA.Start "u3" "hi" []).1 = none ∧
       (flowA.Start "u3" "hi" []).2.1.positions =
         mapInsert flowA.positions "u3" (flowA.nodes flowA.root).next ∧
       mapLookup (flowA.Start "u3" "hi" []).2.1.positions "u3" =
         some (flowA.nodes flowA.root).next) ∧
     (∀ code, flowA.bot (startCall "u3" "hi" []) = some code →
       (flowA.Start "u3" "hi" []).1 = some (FlowError.sendFailed code) ∧
       (flowA.Start "u3" "hi" []).2.1 = flowA)) ∧
    ((flowSendFail.nodes flowSendFail.root).next ≠ none ∧
     (∀ code, flowSendFail.bot (startCall "u3" "hi" []) = some code →
       (flowSendFail.Start "u3" "hi" []).1 =
         some (FlowError.sendFailed code) ∧
       (flowSendFail.Start "u3" "hi" []).2.1 = flowSendFail)) :=
  ⟨⟨by decide, start_send_outcome flowA "u3" "hi" [] (by decide)⟩,
   ⟨by decide, (start_send_outcome flowSendFail "u3" "hi" [] (by decide)).2⟩⟩

/-- C4: on an empty chain (root.next nil) `Start` returns `ErrChainIsEmpty`,
issues no `Send` call and leaves the flow unchanged. -/
theorem start_empty_chain (f : Flow) (rcpt text : String) (options : List Nat)
    (hempty : (f.nodes f.root).next = none) :
    (f.Start rcpt text options).1 = some FlowError.chainIsEmpty ∧
    (f.Start rcpt text options).2.1 = f ∧
    (f.Start rcpt text options).2.2 = [] := by
  simp [Flow.Start, hempty]

/-- C4 witness: `flowEmpty` (root.next is nil). -/
theorem start_empty_chain_witness :
    (flowEmpty.nodes flowEmpty.root).next = none ∧
    ((flowEmpty.Start "u2" "hi" [1]).1 = some FlowError.chainIsEmpty ∧
     (flowEmpty.Start "u2" "hi" [1]).2.1 = flowEmpty ∧
     (flowEmpty.Start "u2" "hi" [1]).2.2 = []) :=
  ⟨by decide, start_empty_chain flowEmpty "u2" "hi" [1] (by decide)⟩

/-- C9: with a non-empty chain, `Start` issues exactly one `Send` call,
carrying the variadic options precisely when the options list is
non-empty, and only recipient and text when it is empty. -/
theorem start_options_forwarding (f : Flow) (rcpt text : String)
    (options : List Nat) (hne : (f.nodes f.root).next ≠ none) :
    (options ≠ [] →
      (f.Start rcpt text options).2.2 =
        [SendCall.sendWithOptions rcpt text options]) ∧
    (options = [] →
      (f.Start rcpt text options).2.2 = [SendCall.sendPlain rcpt text]) := by
  have htrace : (f.Start rcpt text options).2.2 = [startCall rcpt text options] := by
    simp only [Flow.Start]
    rw [if_neg hne]
    cases hb : f.bot (startCall rcpt text options) <;> simp
  constructor
  · intro hopt
    rw [htrace]
    have hc : startCall rcpt text options =
        SendCall.sendWithOptions rcpt text options := by
      cases options with
      | nil => exact absurd rfl hopt
      | cons o os => simp [startCall]
    rw [hc]
  · rintro rfl
    rw [htrace]
    simp [startCall]

/-- C9 witness: `flowA`, once with one option and once with none. -/
theorem start_options_forwarding_witness :
    (flowA.nodes flowA.root).next ≠ none ∧
    ([5] ≠ ([] : List Nat) →
      (flowA.Start "u3" "hi" [5]).2.2 =
        [SendCall.sendWithOptions "u3" "hi" [5]]) ∧
    (([] : List Nat) = [] →
      (flowA.Start "u3" "hi" []).2.2 = [SendCall.sendPlain "u3" "hi"]) :=
  ⟨by decide,
   (start_options_forwarding flowA "u3" "hi" [5] (by decide)).1,
   (start_options_forwarding flowA "u3" "hi" [] (by decide)).2⟩

/-- C7: `NewFlow` never stores the given id in the `flowId` field (so
`GetFlowId` answers the empty string), stores it as the root node's id
instead, and always returns a nil error. -/
theorem newFlow_id_and_error (flowId : String) (bot : SendCall → Option Nat) :
    (NewFlow flowId bot).1.GetFlowId = "" ∧
    ((NewFlow flowId bot).1.nodes (NewFlow flowId bot).1.root).id = flowId ∧
    (NewFlow flowId bot).2 = none := by
  simp [NewFlow, Flow.GetFlowId]

end Chain
